import Mathlib

/-!
Verification of the nutrition-coach WhatsApp bot core against its
natural-language specification.  The definitions below are a shallow
embedding of the TypeScript source: remote services (OpenAI chat
completion, WhatsApp transport, JSON.parse of untrusted strings,
ISO-datetime validation) are passed in as explicit oracle parameters,
database tables are lists of rows, and JavaScript numbers are modelled
as rationals.
-/

/-! ## JSON values (results of JSON.parse, inputs to zod schemas) -/

inductive Json where
  | null : Json
  | bool (b : Bool) : Json
  | num (q : Rat) : Json
  | str (s : String) : Json
  | arr (elems : List Json) : Json
  | obj (fields : List (String × Json)) : Json
deriving Repr

/-- First binding of a key in a JSON object, as JS property lookup. -/
def Json.lookup (j : Json) (key : String) : Option Json :=
  match j with
  | .obj fields => (fields.find? (fun f => f.1 = key)).map (fun f => f.2)
  | _ => none

def Json.asStr : Json → Option String
  | .str s => some s
  | _ => none

def Json.asNum : Json → Option Rat
  | .num q => some q
  | _ => none

def Json.asBool : Json → Option Bool
  | .bool b => some b
  | _ => none

/-- JavaScript truthiness of a field access that may be `undefined`. -/
def jsTruthy : Option Json → Bool
  | none => false
  | some .null => false
  | some (.bool b) => b
  | some (.num q) => !(q = 0)
  | some (.str s) => !(s = "")
  | some (.arr _) => true
  | some (.obj _) => true

/-- Minimal JSON string escaping (quote and backslash), as JSON.stringify. -/
def jsonEscape (s : String) : String :=
  ⟨s.data.foldr (fun c acc =>
      if c = '"' then '\\' :: '"' :: acc
      else if c = '\\' then '\\' :: '\\' :: acc
      else c :: acc) []⟩

mutual

/-- JSON.stringify for the embedded JSON values. -/
def Json.stringify : Json → String
  | .null => "null"
  | .bool b => cond b "true" "false"
  | .num q => toString q
  | .str s => "\"" ++ jsonEscape s ++ "\""
  | .arr elems => "[" ++ String.intercalate "," (Json.stringifyList elems) ++ "]"
  | .obj fields => "\x7b" ++ String.intercalate "," (Json.stringifyFields fields) ++ "\x7d"

def Json.stringifyList : List Json → List String
  | [] => []
  | j :: rest => Json.stringify j :: Json.stringifyList rest

def Json.stringifyFields : List (String × Json) → List String
  | [] => []
  | (k, v) :: rest =>
      ("\"" ++ jsonEscape k ++ "\":" ++ Json.stringify v) :: Json.stringifyFields rest

end

/-! ## LLM intent router (src/ai/AIOrchestrator.ts, routeMessage) -/

structure UserContext where
  goal : Option String
  tone : Option String
  reportTime : Option String
  focus : Option (List String)
deriving Repr, DecidableEq

/-- Context summary string built at the top of routeMessage. -/
def buildContextSummary (context : UserContext) : String :=
  let contextParts : List String :=
    (match context.goal with | some g => ["goal=" ++ g] | none => []) ++
    (match context.tone with | some t => ["tone=" ++ t] | none => []) ++
    (match context.reportTime with | some r => ["reportTime=" ++ r] | none => []) ++
    (match context.focus with
     | some f => if f.length ≠ 0 then ["focus=[" ++ String.intercalate "," f ++ "]"] else []
     | none => [])
  if contextParts.length > 0 then
    "current_prefs: " ++ String.intercalate ", " contextParts
  else
    "current_prefs: none set"

/-- One tool call inside a chat-completion message. -/
structure ToolCall where
  type : String
  name : String
  arguments : String
deriving Repr, DecidableEq

structure ChatMessage where
  tool_calls : List ToolCall
  content : Option String
deriving Repr, DecidableEq

structure Choice where
  message : Option ChatMessage
deriving Repr, DecidableEq

structure Completion where
  choices : List Choice
deriving Repr, DecidableEq

/-- Outcome of the remote chat-completion call: error models a transport
failure (a rejected promise). -/
def CompletionOutcome := Except Unit Completion

inductive OrchestratorResult where
  | tool (toolName : String) (args : Json)
  | reply (text : String)
deriving Repr

/-- `completion.choices[0]?.message` -/
def firstMessage (c : Completion) : Option ChatMessage :=
  match c.choices.head? with
  | none => none
  | some choice => choice.message

/-- The deterministic fallback produced by the catch block of routeMessage. -/
def askCoachFallback (text : String) : OrchestratorResult :=
  .tool "ask_coach" (.obj [("question", .str text)])

/-- routeMessage, with the remote completion and JSON.parse as oracles.
`jsonParse` returns none when JSON.parse would throw on the string. -/
def routeMessage (jsonParse : String → Option Json) (text : String)
    (context : UserContext) (outcome : CompletionOutcome) : OrchestratorResult :=
  let _ := buildContextSummary context
  match outcome with
  | .error _ => askCoachFallback text
  | .ok completion =>
    match firstMessage completion with
    | none => askCoachFallback text
    | some message =>
      match message.tool_calls with
      | toolCall :: _ =>
        if toolCall.type = "function" then
          match jsonParse toolCall.arguments with
          | none => askCoachFallback text
          | some args => .tool toolCall.name args
        else
          .reply (match message.content with
                  | some c => if c.trim = "" then "I\x27m here to help with your nutrition goals!" else c.trim
                  | none => "I\x27m here to help with your nutrition goals!")
      | [] =>
        .reply (match message.content with
                | some c => if c.trim = "" then "I\x27m here to help with your nutrition goals!" else c.trim
                | none => "I\x27m here to help with your nutrition goals!")

/-! ## LLM meal analyzer (AIMealAnalyzer.analyzeMeal and mealAnalysisSchema) -/

/-- A nutrition range with confidence (zod sub-object of mealAnalysisSchema). -/
structure ConfRange where
  min : Rat
  max : Rat
  confidence : Rat
deriving Repr, DecidableEq

structure ConfBool where
  value : Bool
  confidence : Rat
deriving Repr, DecidableEq

structure ConfNat where
  value : Nat
  confidence : Rat
deriving Repr, DecidableEq

structure ConfStr where
  value : String
  confidence : Rat
deriving Repr, DecidableEq

structure Nutrition where
  calories : Option ConfRange
  protein_g : Option ConfRange
  carbs_g : Option ConfRange
  fat_g : Option ConfRange
  fiber_g : Option ConfRange
deriving Repr, DecidableEq

structure Categories where
  veggies : ConfBool
  junk : ConfBool
  processing_level : Option ConfNat
  homemade : ConfBool
  carbs_quality : Option ConfStr
deriving Repr, DecidableEq

structure Ingredient where
  name : String
  confidence : Rat
deriving Repr, DecidableEq

structure DietaryFlags where
  dairy : Option Bool
  gluten : Option Bool
  nuts : Option Bool
  vegan_friendly : Option Bool
deriving Repr, DecidableEq

structure MealAnalysis where
  nutrition : Nutrition
  categories : Categories
  ingredients : List Ingredient
  meal_type : ConfStr
  portion_size : ConfStr
  dietary_flags : Option DietaryFlags
  overall_confidence : Rat
  notes : Option String
  estimation_source : String
  model_version : String
  classification_version : Nat
deriving Repr, DecidableEq

/-- z.number().min(0).max(1) -/
def parseConfidence (j : Json) : Option Rat := do
  let q ← j.asNum
  if 0 ≤ q ∧ q ≤ 1 then some q else none

/-- Sub-schema \x7bmin, max, confidence\x7d. -/
def parseConfRange (j : Json) : Option ConfRange := do
  let mn ← (← j.lookup "min").asNum
  let mx ← (← j.lookup "max").asNum
  let c ← parseConfidence (← j.lookup "confidence")
  some ⟨mn, mx, c⟩

/-- An optional zod field: absent parses to none, present must satisfy f. -/
def parseOptWith (f : Json → Option α) (o : Option Json) : Option (Option α) :=
  match o with
  | none => some none
  | some v => (f v).map some

/-- A required nullable zod field: key must be present; null maps to none. -/
def parseNullableWith (f : Json → Option α) (o : Option Json) : Option (Option α) :=
  match o with
  | none => none
  | some .null => some none
  | some v => (f v).map some

/-- An optional nullable zod field: absent or null map to none. -/
def parseOptNullableWith (f : Json → Option α) (o : Option Json) : Option (Option α) :=
  match o with
  | none => some none
  | some .null => some none
  | some v => (f v).map some

def parseNutrition (j : Json) : Option Nutrition := do
  let calories ← parseNullableWith parseConfRange (j.lookup "calories")
  let protein_g ← parseNullableWith parseConfRange (j.lookup "protein_g")
  let carbs_g ← parseNullableWith parseConfRange (j.lookup "carbs_g")
  let fat_g ← parseNullableWith parseConfRange (j.lookup "fat_g")
  let fiber_g ← parseOptNullableWith parseConfRange (j.lookup "fiber_g")
  some ⟨calories, protein_g, carbs_g, fat_g, fiber_g⟩

def parseConfBool (j : Json) : Option ConfBool := do
  let v ← (← j.lookup "value").asBool
  let c ← parseConfidence (← j.lookup "confidence")
  some ⟨v, c⟩

/-- processing_level: value must be the literal 1, 2, 3 or 4. -/
def parseProcessingLevel (j : Json) : Option ConfNat := do
  let v ← (← j.lookup "value").asNum
  let c ← parseConfidence (← j.lookup "confidence")
  if v = 1 then some ⟨1, c⟩
  else if v = 2 then some ⟨2, c⟩
  else if v = 3 then some ⟨3, c⟩
  else if v = 4 then some ⟨4, c⟩
  else none

def parseConfEnum (allowed : List String) (j : Json) : Option ConfStr := do
  let v ← (← j.lookup "value").asStr
  let c ← parseConfidence (← j.lookup "confidence")
  if v ∈ allowed then some ⟨v, c⟩ else none

def parseCategories (j : Json) : Option Categories := do
  let veggies ← parseConfBool (← j.lookup "veggies")
  let junk ← parseConfBool (← j.lookup "junk")
  let processing_level ← parseOptWith parseProcessingLevel (j.lookup "processing_level")
  let homemade ← parseConfBool (← j.lookup "homemade")
  let carbs_quality ←
    parseOptWith (parseConfEnum ["refined", "whole", "mixed", "unknown"])
      (j.lookup "carbs_quality")
  some ⟨veggies, junk, processing_level, homemade, carbs_quality⟩

def parseIngredient (j : Json) : Option Ingredient := do
  let n ← (← j.lookup "name").asStr
  let c ← parseConfidence (← j.lookup "confidence")
  some ⟨n, c⟩

def parseIngredientList : List Json → Option (List Ingredient)
  | [] => some []
  | j :: rest => do
      let i ← parseIngredient j
      let l ← parseIngredientList rest
      some (i :: l)

def parseIngredients (j : Json) : Option (List Ingredient) :=
  match j with
  | .arr elems => parseIngredientList elems
  | _ => none

def parseDietaryFlags (j : Json) : Option DietaryFlags := do
  let dairy ← parseOptWith Json.asBool (j.lookup "dairy")
  let gluten ← parseOptWith Json.asBool (j.lookup "gluten")
  let nuts ← parseOptWith Json.asBool (j.lookup "nuts")
  let vegan_friendly ← parseOptWith Json.asBool (j.lookup "vegan_friendly")
  some ⟨dairy, gluten, nuts, vegan_friendly⟩

/-- z.string().max(100), the notes field. -/
def parseNotes (v : Json) : Option String := do
  let s ← v.asStr
  if s.length ≤ 100 then some s else none

/-- mealAnalysisSchema.parse (src/ai/schemas.ts): none models a ZodError.
The three provenance fields are filled in by the caller. -/
def mealAnalysisSchemaParse (j : Json) : Option MealAnalysis := do
  let nutrition ← parseNutrition (← j.lookup "nutrition")
  let categories ← parseCategories (← j.lookup "categories")
  let ingredients ← parseIngredients (← j.lookup "ingredients")
  let meal_type ← parseConfEnum
      ["breakfast", "lunch", "dinner", "snack", "post_workout", "other"]
      (← j.lookup "meal_type")
  let portion_size ← parseConfEnum ["small", "medium", "large"] (← j.lookup "portion_size")
  let dietary_flags ← parseOptWith parseDietaryFlags (j.lookup "dietary_flags")
  let overall_confidence ← parseConfidence (← j.lookup "overall_confidence")
  let notes ← parseOptWith parseNotes (j.lookup "notes")
  some ⟨nutrition, categories, ingredients, meal_type, portion_size, dietary_flags,
        overall_confidence, notes, "", "", 0⟩

/-- The function_call part of the analyzer chat-completion response:
arguments is Option to model an undefined arguments property. -/
structure FunctionCall where
  arguments : Option String
deriving Repr, DecidableEq

structure AnalyzerMessage where
  function_call : Option FunctionCall
deriving Repr, DecidableEq

structure AnalyzerChoice where
  message : Option AnalyzerMessage
deriving Repr, DecidableEq

structure AnalyzerCompletion where
  choices : List AnalyzerChoice
deriving Repr, DecidableEq

/-- Outcome of the analyzer remote call. -/
def AnalyzerOutcome := Except Unit AnalyzerCompletion

/-- `response.choices[0]?.message?.function_call` -/
def analyzerFunctionCall (c : AnalyzerCompletion) : Option FunctionCall :=
  match c.choices.head? with
  | none => none
  | some choice =>
    match choice.message with
    | none => none
    | some m => m.function_call

/-- AIMealAnalyzer.analyzeMeal with the remote call and JSON.parse as
oracles; any throw is caught and mapped to none. -/
def analyzeMeal (jsonParse : String → Option Json)
    (outcome : AnalyzerOutcome) : Option MealAnalysis :=
  match outcome with
  | .error _ => none
  | .ok response =>
    match analyzerFunctionCall response with
    | none => none
    | some functionCall =>
      match functionCall.arguments with
      | none => none
      | some argStr =>
        match jsonParse argStr with
        | none => none
        | some rawAnalysis =>
          match mealAnalysisSchemaParse rawAnalysis with
          | none => none
          | some validatedAnalysis =>
            some { validatedAnalysis with
                     estimation_source := "openai",
                     model_version := "gpt-4o-mini",
                     classification_version := 1 }

/-- All confidence scores of an analysis lie in [0,1]. -/
def confidencesValid (a : MealAnalysis) : Prop :=
  0 ≤ a.overall_confidence ∧ a.overall_confidence ≤ 1 ∧
  (∀ r, a.nutrition.calories = some r → 0 ≤ r.confidence ∧ r.confidence ≤ 1) ∧
  (∀ r, a.nutrition.protein_g = some r → 0 ≤ r.confidence ∧ r.confidence ≤ 1) ∧
  (∀ r, a.nutrition.carbs_g = some r → 0 ≤ r.confidence ∧ r.confidence ≤ 1) ∧
  (∀ r, a.nutrition.fat_g = some r → 0 ≤ r.confidence ∧ r.confidence ≤ 1) ∧
  (∀ r, a.nutrition.fiber_g = some r → 0 ≤ r.confidence ∧ r.confidence ≤ 1) ∧
  (0 ≤ a.categories.veggies.confidence ∧ a.categories.veggies.confidence ≤ 1) ∧
  (0 ≤ a.categories.junk.confidence ∧ a.categories.junk.confidence ≤ 1) ∧
  (0 ≤ a.categories.homemade.confidence ∧ a.categories.homemade.confidence ≤ 1) ∧
  (∀ p, a.categories.processing_level = some p → 0 ≤ p.confidence ∧ p.confidence ≤ 1) ∧
  (∀ q, a.categories.carbs_quality = some q → 0 ≤ q.confidence ∧ q.confidence ≤ 1) ∧
  (∀ i, i ∈ a.ingredients → 0 ≤ i.confidence ∧ i.confidence ≤ 1) ∧
  (0 ≤ a.meal_type.confidence ∧ a.meal_type.confidence ≤ 1) ∧
  (0 ≤ a.portion_size.confidence ∧ a.portion_size.confidence ≤ 1)

/-! ## Preferences (PreferenceService.applyPreferences, prisma schema) -/

/-- A Preferences row (the scheduling-relevant columns; updatedAt is
managed by the ORM and carries no business state). -/
structure Preferences where
  userId : String
  goal : String
  tone : String
  reportTime : String
  reportFormat : String
  focus : String
  thresholds : String
deriving Repr, DecidableEq

/-- PreferenceUpdate (modules/prefs/PreferenceParser.ts). -/
structure PreferenceUpdate where
  goal : Option String
  reportTime : Option String
  tone : Option String
  focus : Option (List String)
  storeMedia : Option Bool
deriving Repr, DecidableEq

/-- Per-user persisted state touched by applyPreferences: the user's
storeMedia flag and the optional Preferences row. -/
structure UserPrefsState where
  storeMedia : Bool
  preferences : Option Preferences
deriving Repr, DecidableEq

/-- PreferenceService.applyPreferences: partial update of the present
fields, upsert semantics on the Preferences row, separate user.update
for storeMedia.  Returns the upserted row and the new state. -/
def applyPreferences (userId : String) (updates : PreferenceUpdate)
    (st : UserPrefsState) : Preferences × UserPrefsState :=
  let st1 := match updates.storeMedia with
    | some b => { st with storeMedia := b }
    | none => st
  let newPrefs := match st1.preferences with
    | some p =>
        { p with
          goal := updates.goal.getD p.goal,
          reportTime := updates.reportTime.getD p.reportTime,
          tone := updates.tone.getD p.tone,
          focus := match updates.focus with
                   | some f => Json.stringify (.arr (f.map .str))
                   | none => p.focus }
    | none =>
        { userId := userId,
          goal := updates.goal.getD "general",
          tone := updates.tone.getD "friendly",
          reportTime := updates.reportTime.getD "21:30",
          reportFormat := "text",
          focus := Json.stringify (.arr ((updates.focus.getD []).map .str)),
          thresholds := Json.stringify (.obj [("lateHour", .num 21)]) }
  (newPrefs, { st1 with preferences := some newPrefs })

/-! ## set_preferences tool arguments and handler -/

structure SetPreferencesArgs where
  goal : Option String
  tone : Option String
  reportTime : Option String
  focus : Option (List String)
  dietaryRestrictions : Option (List String)
  storeMedia : Option Bool
deriving Repr, DecidableEq

/-- ^([01]?[0-9]|2[0-3]):[0-5][0-9]$ (TIME_FORMAT_REGEX). -/
def timeFormatOk (s : String) : Bool :=
  match s.data with
  | [h, ':', m1, m2] =>
      h.isDigit && (('0' ≤ m1 && m1 ≤ '5') && m2.isDigit)
  | [h1, h2, ':', m1, m2] =>
      (((h1 = '0' || h1 = '1') && h2.isDigit) || (h1 = '2' && ('0' ≤ h2 && h2 ≤ '3'))) &&
      (('0' ≤ m1 && m1 ≤ '5') && m2.isDigit)
  | _ => false

def parseEnumStr (allowed : List String) (v : Json) : Option String := do
  let s ← v.asStr
  if s ∈ allowed then some s else none

def parseTimePattern (v : Json) : Option String := do
  let s ← v.asStr
  if timeFormatOk s then some s else none

def parseStringElems : List Json → Option (List String)
  | [] => some []
  | j :: rest => do
      let s ← j.asStr
      let l ← parseStringElems rest
      some (s :: l)

def parseStringArray (v : Json) : Option (List String) :=
  match v with
  | .arr elems => parseStringElems elems
  | _ => none

def parseEnumElems (allowed : List String) : List Json → Option (List String)
  | [] => some []
  | j :: rest => do
      let s ← parseEnumStr allowed j
      let l ← parseEnumElems allowed rest
      some (s :: l)

def parseEnumArray (allowed : List String) (v : Json) : Option (List String) :=
  match v with
  | .arr elems => parseEnumElems allowed elems
  | _ => none

/-- setPreferencesSchema.parse (src/ai/schemas.ts). -/
def setPreferencesSchemaParse (j : Json) : Option SetPreferencesArgs :=
  match j with
  | .obj _ => do
      let goal ← parseOptWith
        (parseEnumStr ["fat_loss", "muscle_gain", "maintenance", "general"])
        (j.lookup "goal")
      let tone ← parseOptWith (parseEnumStr ["friendly", "clinical", "funny"])
        (j.lookup "tone")
      let reportTime ← parseOptWith parseTimePattern (j.lookup "reportTime")
      let focus ← parseOptWith
        (parseEnumArray ["protein", "veggies", "carbs", "late_eating", "home_cooking"])
        (j.lookup "focus")
      let dietaryRestrictions ← parseOptWith parseStringArray
        (j.lookup "dietaryRestrictions")
      let storeMedia ← parseOptWith Json.asBool (j.lookup "storeMedia")
      some ⟨goal, tone, reportTime, focus, dietaryRestrictions, storeMedia⟩
  | _ => none

/-- The `updates` list pushed by SetPreferencesHandler.handle, in source
order: goal, tone, reportTime, focus, dietaryRestrictions. -/
def updatesList (v : SetPreferencesArgs) : List String :=
  (match v.goal with | some g => ["goal: " ++ g] | none => []) ++
  (match v.tone with | some t => ["tone: " ++ t] | none => []) ++
  (match v.reportTime with | some r => ["report time: " ++ r] | none => []) ++
  (match v.focus with
   | some f => ["focus: " ++ String.intercalate ", " f]
   | none => []) ++
  (match v.dietaryRestrictions with
   | some d => ["dietary restrictions: " ++ String.intercalate ", " d]
   | none => [])

/-- SetPreferencesHandler.handle. -/
def setPreferencesHandle (argsJson : Json) (userId : String)
    (st : UserPrefsState) : (String × String) × UserPrefsState :=
  match setPreferencesSchemaParse argsJson with
  | none =>
      (("Sorry, I couldn\x27t understand your preference update. Please try again.",
        "error"), st)
  | some validArgs =>
      let preferenceUpdate : PreferenceUpdate :=
        ⟨validArgs.goal, validArgs.reportTime, validArgs.tone, validArgs.focus,
         validArgs.storeMedia⟩
      let st1 := (applyPreferences userId preferenceUpdate st).2
      (("✅ Updated: " ++ String.intercalate ", " (updatesList validArgs),
        "preference_update"), st1)

/-- Spec-side definition for the amended C6 claim: the confirmation
enumerates exactly the fields present in the arguments, in the fixed
order goal, tone, reportTime, focus, dietaryRestrictions (the last being
echoed even though it is never persisted). -/
def specConfirmationLabels (v : SetPreferencesArgs) : List String :=
  (match v.goal with | some g => ["goal: " ++ g] | none => []) ++
  (match v.tone with | some t => ["tone: " ++ t] | none => []) ++
  (match v.reportTime with | some r => ["report time: " ++ r] | none => []) ++
  (match v.focus with
   | some f => ["focus: " ++ String.intercalate ", " f]
   | none => []) ++
  (match v.dietaryRestrictions with
   | some d => ["dietary restrictions: " ++ String.intercalate ", " d]
   | none => [])

/-! ## Users (UserRepository, UserService.getOrCreateUser) -/

structure UserRow where
  id : String
  phone : String
  language : String
  storeMedia : Bool
  preferences : Option Preferences
deriving Repr, DecidableEq

/-- The defaults UserRepository.create writes into the nested
Preferences row. -/
def defaultPreferences (userId : String) : Preferences :=
  { userId := userId,
    goal := "general",
    tone := "friendly",
    reportTime := "21:30",
    reportFormat := "text",
    focus := Json.stringify (.arr []),
    thresholds := Json.stringify (.obj [("lateHour", .num 21)]) }

def findByPhone (db : List UserRow) (phone : String) : Option UserRow :=
  db.find? (fun u => u.phone = phone)

/-- UserRepository.create: user plus nested Preferences in one create. -/
def createUser (db : List UserRow) (newId phone language : String) :
    UserRow × List UserRow :=
  let user : UserRow :=
    ⟨newId, phone, language, false, some (defaultPreferences newId)⟩
  (user, db ++ [user])

/-- UserRepository.upsert: return existing user or create a new one. -/
def upsertUser (db : List UserRow) (newId phone language : String) :
    UserRow × List UserRow :=
  match findByPhone db phone with
  | some existing => (existing, db)
  | none => createUser db newId phone language

/-- UserService.getOrCreateUser: throws when the upserted user has no
preferences row. -/
def getOrCreateUser (db : List UserRow) (newId phone language : String) :
    Except String (UserRow × List UserRow) :=
  let r := upsertUser db newId phone language
  match r.1.preferences with
  | none => .error "Failed to create user preferences"
  | some _ => .ok r

/-! ## Meals (AI-analysis MealService.createMeal, LogMealHandler) -/

structure Meal where
  userId : String
  rawText : String
  sourceType : String
  tags : String
  createdAt : Nat
deriving Repr, DecidableEq

def confRangeToJson (r : ConfRange) : Json :=
  .obj [("min", .num r.min), ("max", .num r.max), ("confidence", .num r.confidence)]

def optRangeToJson : Option ConfRange → Json
  | none => .null
  | some r => confRangeToJson r

def confBoolToJson (b : ConfBool) : Json :=
  .obj [("value", .bool b.value), ("confidence", .num b.confidence)]

def confNatToJson (n : ConfNat) : Json :=
  .obj [("value", .num n.value), ("confidence", .num n.confidence)]

def confStrToJson (s : ConfStr) : Json :=
  .obj [("value", .str s.value), ("confidence", .num s.confidence)]

def ingredientToJson (i : Ingredient) : Json :=
  .obj [("name", .str i.name), ("confidence", .num i.confidence)]

def nutritionToJson (n : Nutrition) : Json :=
  .obj ([("calories", optRangeToJson n.calories),
         ("protein_g", optRangeToJson n.protein_g),
         ("carbs_g", optRangeToJson n.carbs_g),
         ("fat_g", optRangeToJson n.fat_g)] ++
        (match n.fiber_g with
         | some r => [("fiber_g", confRangeToJson r)]
         | none => []))

def categoriesToJson (c : Categories) : Json :=
  .obj ([("veggies", confBoolToJson c.veggies),
         ("junk", confBoolToJson c.junk)] ++
        (match c.processing_level with
         | some p => [("processing_level", confNatToJson p)]
         | none => []) ++
        [("homemade", confBoolToJson c.homemade)] ++
        (match c.carbs_quality with
         | some q => [("carbs_quality", confStrToJson q)]
         | none => []))

def dietaryFlagsToJson (d : DietaryFlags) : Json :=
  .obj ((match d.dairy with | some b => [("dairy", Json.bool b)] | none => []) ++
        (match d.gluten with | some b => [("gluten", Json.bool b)] | none => []) ++
        (match d.nuts with | some b => [("nuts", Json.bool b)] | none => []) ++
        (match d.vegan_friendly with
         | some b => [("vegan_friendly", Json.bool b)]
         | none => []))

/-- The analysis object as serialized by JSON.stringify in MealService. -/
def analysisToJson (a : MealAnalysis) : Json :=
  .obj ([("nutrition", nutritionToJson a.nutrition),
         ("categories", categoriesToJson a.categories),
         ("ingredients", .arr (a.ingredients.map ingredientToJson)),
         ("meal_type", confStrToJson a.meal_type),
         ("portion_size", confStrToJson a.portion_size)] ++
        (match a.dietary_flags with
         | some df => [("dietary_flags", dietaryFlagsToJson df)]
         | none => []) ++
        [("overall_confidence", .num a.overall_confidence)] ++
        (match a.notes with | some s => [("notes", .str s)] | none => []) ++
        [("estimation_source", .str a.estimation_source),
         ("model_version", .str a.model_version),
         ("classification_version", .num a.classification_version)])

/-- MealService.createMeal (AI-analysis variant): the analyzer outcome is
the oracle result of analyzeMeal; the row is created either way, with the
serialized analysis or the empty blob as tags. -/
def createMeal (analysis : Option MealAnalysis) (userId rawText : String)
    (sourceType : String) (timestamp : Nat) (meals : List Meal) :
    Meal × List Meal :=
  let meal : Meal :=
    ⟨userId, rawText, sourceType,
     match analysis with
     | some a => Json.stringify (analysisToJson a)
     | none => "\x7b\x7d",
     timestamp⟩
  (meal, meals ++ [meal])

/-- MealService.generateMealHint (AI variant): JSON.stringify(analysis);
the user argument is unused by the source. -/
def generateMealHint (_user : UserRow) (analysis : MealAnalysis) : String :=
  Json.stringify (analysisToJson analysis)

structure LogMealArgs where
  text : String
  when : Option String
deriving Repr, DecidableEq

/-- z.string().datetime() on the optional when field; the ISO-8601 check
itself is external (the isDatetime oracle). -/
def parseWhenField (isDatetime : String → Bool) (o : Option Json) :
    Option (Option String) :=
  match o with
  | none => some none
  | some wj => do
      let w ← wj.asStr
      if isDatetime w then some (some w) else none

/-- logMealSchema.parse: text required with length ≥ 1, when optional. -/
def logMealSchemaParse (isDatetime : String → Bool) (j : Json) :
    Option LogMealArgs :=
  match j with
  | .obj _ => do
      let tj ← j.lookup "text"
      let t ← tj.asStr
      if 1 ≤ t.length then
        (parseWhenField isDatetime (j.lookup "when")).map (LogMealArgs.mk t)
      else none
  | _ => none

/-- LogMealHandler.handle; parseDate is the `new Date(when)` conversion. -/
def logMealHandle (isDatetime : String → Bool) (parseDate : String → Nat)
    (analyzerResult : Option MealAnalysis) (argsJson : Json) (userId : String)
    (messageTimestamp : Nat) (user : UserRow) (meals : List Meal) :
    (String × String) × List Meal :=
  match logMealSchemaParse isDatetime argsJson with
  | none =>
      (("Sorry, I couldn\x27t log that meal. Please try again.", "error"), meals)
  | some validArgs =>
      let mealTime := match validArgs.when with
        | some w => parseDate w
        | none => messageTimestamp
      let r := createMeal analyzerResult userId validArgs.text "TEXT" mealTime meals
      match analyzerResult with
      | some analysis =>
          ((generateMealHint user analysis, "meal_logged"), r.2)
      | none =>
          (("Meal logged! (Analysis temporarily unavailable, but your meal is saved)",
            "meal_logged_no_analysis"), r.2)

/-! ## Keyword meal tagger (MealTagger, utils/time) -/

/-- getTimeOfDay (src/utils/time.ts): half-open hour buckets. -/
def getTimeOfDay (hour : Nat) : String :=
  if 5 ≤ hour ∧ hour < 11 then "morning"
  else if 11 ≤ hour ∧ hour < 17 then "noon"
  else if 17 ≤ hour ∧ hour < 21 then "evening"
  else "late"

/-- parseTimeString (src/utils/time.ts): HH:mm with 1-2 digit hour;
none models the thrown error. -/
def parseTimeString (s : String) : Option (Nat × Nat) :=
  match s.data with
  | [h, ':', m1, m2] =>
      if h.isDigit && m1.isDigit && m2.isDigit then
        let hour := h.toNat - 48
        let minute := (m1.toNat - 48) * 10 + (m2.toNat - 48)
        if hour ≤ 23 ∧ minute ≤ 59 then some (hour, minute) else none
      else none
  | [h1, h2, ':', m1, m2] =>
      if h1.isDigit && h2.isDigit && m1.isDigit && m2.isDigit then
        let hour := (h1.toNat - 48) * 10 + (h2.toNat - 48)
        let minute := (m1.toNat - 48) * 10 + (m2.toNat - 48)
        if hour ≤ 23 ∧ minute ≤ 59 then some (hour, minute) else none
      else none
  | _ => none

def proteinKeywords : List String :=
  ["chicken", "beef", "pork", "fish", "salmon", "tuna", "egg", "eggs",
   "protein", "meat", "turkey", "lamb", "tofu", "beans", "lentils",
   "cheese", "yogurt", "milk", "nuts", "almonds", "peanuts",
   "quinoa", "cottage cheese", "greek yogurt", "protein shake"]

def veggieKeywords : List String :=
  ["salad", "vegetables", "veggies", "broccoli", "spinach", "lettuce",
   "tomato", "cucumber", "carrot", "peppers", "onion", "garlic",
   "mushroom", "zucchini", "eggplant", "cabbage", "kale", "arugula",
   "avocado", "asparagus", "celery", "radish", "beets", "green"]

def lowCarbKeywords : List String :=
  ["salad", "vegetables", "veggies", "protein", "meat", "fish",
   "eggs", "cheese", "nuts", "avocado", "leafy greens"]

def mediumCarbKeywords : List String :=
  ["quinoa", "sweet potato", "fruit", "apple", "banana", "berries",
   "oats", "oatmeal", "yogurt", "milk", "beans", "lentils"]

def highCarbKeywords : List String :=
  ["bread", "pasta", "rice", "pizza", "sandwich", "bagel", "cereal",
   "pancakes", "waffles", "muffin", "cake", "cookies", "potatoes",
   "fries", "chips", "crackers", "noodles", "spaghetti"]

def junkKeywords : List String :=
  ["pizza", "burger", "fries", "chips", "soda", "coke", "candy",
   "chocolate", "ice cream", "cookies", "cake", "donut", "fast food",
   "mcdonalds", "kfc", "dominos", "fried", "deep fried", "energy drink"]

/-- text.toLowerCase() on the character list. -/
def lowerChars (s : String) : List Char := s.data.map Char.toLower

/-- String.prototype.trim on the character list. -/
def trimChars (l : List Char) : List Char :=
  ((l.dropWhile Char.isWhitespace).reverse.dropWhile Char.isWhitespace).reverse

/-- String.prototype.includes: substring presence. -/
def containsChars (hay pat : List Char) : Bool := decide (pat <:+: hay)

mutual

/-- split(/\s+/): reading a word (accumulator holds it reversed). -/
def splitWordsGo : List Char → List Char → List (List Char)
  | acc, [] => [acc.reverse]
  | acc, c :: rest =>
      if c.isWhitespace then acc.reverse :: splitWordsSkip rest
      else splitWordsGo (c :: acc) rest

/-- split(/\s+/): inside a whitespace run. -/
def splitWordsSkip : List Char → List (List Char)
  | [] => [[]]
  | c :: rest =>
      if c.isWhitespace then splitWordsSkip rest
      else splitWordsGo [c] rest

end

def splitWords (l : List Char) : List (List Char) := splitWordsGo [] l

/-- One keyword test of the tagger:
text.includes(keyword) || words.some(word => word === keyword). -/
def keywordHit (text : List Char) (words : List (List Char))
    (keyword : String) : Bool :=
  containsChars text keyword.data || words.any (fun w => decide (w = keyword.data))

def detectProtein (text : List Char) (words : List (List Char)) : Bool :=
  proteinKeywords.any (keywordHit text words)

def detectVeggies (text : List Char) (words : List (List Char)) : Bool :=
  veggieKeywords.any (keywordHit text words)

def detectCarbs (text : List Char) (words : List (List Char)) : String :=
  if highCarbKeywords.any (keywordHit text words) then "high"
  else if mediumCarbKeywords.any (keywordHit text words) then "medium"
  else if lowCarbKeywords.any (keywordHit text words) then "low"
  else "medium"

def detectJunk (text : List Char) (words : List (List Char)) : Bool :=
  junkKeywords.any (keywordHit text words)

structure MealTags where
  protein : Bool
  veggies : Bool
  carbs : String
  junk : Bool
  timeOfDay : String
deriving Repr, DecidableEq

/-- MealTagger.tagMealFromText; hour is timestamp.getHours(). -/
def tagMealFromText (text : String) (hour : Nat) : MealTags :=
  let normalizedText := trimChars (lowerChars text)
  let words := splitWords normalizedText
  { protein := detectProtein normalizedText words,
    veggies := detectVeggies normalizedText words,
    carbs := detectCarbs normalizedText words,
    junk := detectJunk normalizedText words,
    timeOfDay := getTimeOfDay hour }

/-- A keyword with non-whitespace first and last character (all tagger
keywords satisfy this; it is what makes includes-after-trim agree with
includes-before-trim). -/
def goodKeyword (kw : String) : Bool :=
  (match kw.data.head? with | some c => !c.isWhitespace | none => false) &&
  (match kw.data.getLast? with | some c => !c.isWhitespace | none => false)

/-! ## Daily summary (MealService.getMealStats keyword variant,
DailySummaryService) -/

def msPerDay : Nat := 86400000

/-- Calendar day of an epoch-millisecond timestamp; stands for the
YYYY-MM-DD string of toISOString().split('T')[0] (the map between the
two is a bijection). -/
def dayIndex (t : Nat) : Nat := t / msPerDay

/-- getDayBounds: local midnight to 23:59:59.999 of the day of t. -/
def getDayBounds (t : Nat) : Nat × Nat :=
  (dayIndex t * msPerDay, dayIndex t * msPerDay + (msPerDay - 1))

/-- MealService.getMealsInRange: rows of the user inside [start, end]. -/
def getMealsInRange (db : List Meal) (userId : String)
    (startDate endDate : Nat) : List Meal :=
  db.filter (fun m =>
    decide (m.userId = userId) && decide (startDate ≤ m.createdAt) &&
    decide (m.createdAt ≤ endDate))

/-- JSON.parse of every meal tags blob; none models the first parse throw. -/
def parseTagsList (jsonParse : String → Option Json) :
    List Meal → Option (List Json)
  | [] => some []
  | m :: rest => do
      let t ← jsonParse m.tags
      let l ← parseTagsList jsonParse rest
      some (t :: l)

/-- tags.timeOfDay === 'late' on the parsed blob. -/
def tagIsLate (t : Json) : Bool :=
  match t.lookup "timeOfDay" with
  | some (.str s) => s = "late"
  | _ => false

def tagVeggies (t : Json) : Bool := jsTruthy (t.lookup "veggies")

def tagProtein (t : Json) : Bool := jsTruthy (t.lookup "protein")

def tagJunk (t : Json) : Bool := jsTruthy (t.lookup "junk")

structure MealStats where
  totalMeals : Nat
  lateMeals : Nat
  veggieRatio : Rat
  proteinRatio : Rat
  junkRatio : Rat
deriving Repr, DecidableEq

/-- MealService.getMealStats (keyword-tags variant): error models the
exception a malformed tags blob raises inside the filters. -/
def getMealStats (jsonParse : String → Option Json) (db : List Meal)
    (userId : String) (startDate endDate : Nat) : Except Unit MealStats :=
  let meals := getMealsInRange db userId startDate endDate
  if meals.length = 0 then .ok ⟨0, 0, 0, 0, 0⟩
  else
    match parseTagsList jsonParse meals with
    | none => .error ()
    | some tagsList =>
        .ok ⟨meals.length,
             (tagsList.filter tagIsLate).length,
             ((tagsList.filter tagVeggies).length : Rat) / meals.length,
             ((tagsList.filter tagProtein).length : Rat) / meals.length,
             ((tagsList.filter tagJunk).length : Rat) / meals.length⟩

/-- DailySummaryService.generateSuggestions. -/
def generateSuggestions (stats : MealStats) : List String :=
  if stats.totalMeals = 0 then ["Remember to log your meals tomorrow!"]
  else
    let suggestions :=
      (if stats.lateMeals > 0 then
        ["Try eating earlier - late meals can affect sleep quality"] else []) ++
      (if stats.veggieRatio < (0.5 : Rat) then
        ["Add more vegetables to your meals for better nutrition"] else []) ++
      (if stats.proteinRatio < (0.6 : Rat) then
        ["Include protein in more meals for better satiety"] else []) ++
      (if stats.junkRatio > (0.3 : Rat) then
        ["Reduce processed foods - aim for whole foods instead"] else [])
    if suggestions.length = 0 then
      ["Great job maintaining balanced nutrition today!"]
    else suggestions

structure DailySummary where
  date : Nat
  mealsCount : Nat
  lateMeals : Nat
  veggiesRatio : Rat
  proteinRatio : Rat
  junkRatio : Rat
  suggestions : List String
deriving Repr, DecidableEq

/-- DailySummaryService.composeDailySummary. -/
def composeDailySummary (jsonParse : String → Option Json) (db : List Meal)
    (userId : String) (date : Nat) : Except Unit DailySummary :=
  let bounds := getDayBounds date
  match getMealStats jsonParse db userId bounds.1 bounds.2 with
  | .error e => .error e
  | .ok stats =>
      .ok ⟨dayIndex date, stats.totalMeals, stats.lateMeals, stats.veggieRatio,
           stats.proteinRatio, stats.junkRatio, generateSuggestions stats⟩

/-- Math.round for the non-negative percentages rendered in reports. -/
def jsRound (q : Rat) : Int := (q + (0.5 : Rat)).floor

def suggestionLine (s : String) : String := "• " ++ s ++ "\n"

def trimString (s : String) : String := ⟨trimChars s.data⟩

/-- DailySummaryService.formatSummaryText. -/
def formatSummaryText (summary : DailySummary) (tone : String) : String :=
  let header :=
    if tone = "clinical" then
      "📊 Daily Nutrition Report - " ++ toString summary.date ++ "\n\n"
    else if tone = "funny" then "🎭 Your Food Adventures Today!\n\n"
    else "🌟 Daily Summary - " ++ toString summary.date ++ "\n\n"
  let statsPart :=
    if summary.mealsCount = 0 then
      (if tone = "funny" then "Did you forget to eat? That\x27s one way to fast! 😅"
       else "No meals logged today.")
    else
      "Meals logged: " ++ toString summary.mealsCount ++ "\n" ++
      (if summary.lateMeals > 0 then
        "Late meals: " ++ toString summary.lateMeals ++ "\n" else "") ++
      "Veggie meals: " ++ toString (jsRound (summary.veggiesRatio * 100)) ++ "%\n"
  let tips :=
    if summary.suggestions.length > 0 then
      "\n💡 " ++ (if tone = "clinical" then "Recommendations" else "Tips") ++ ":\n" ++
      String.join (summary.suggestions.map suggestionLine)
    else ""
  trimString (header ++ statsPart ++ tips)

/-! ## Report scheduler (ReportScheduler.checkAndSendReports,
wasReportSentToday, DailySummaryService.sendDailySummary) -/

structure MessageLog where
  userId : Option String
  direction : String
  payload : String
  createdAt : Nat
deriving Repr, DecidableEq

/-- payload.contains(pattern) of the Prisma string filter. -/
def strContains (s pat : String) : Bool := decide (pat.data <:+: s.data)

/-- ReportScheduler.wasReportSentToday: an OUT log row of the user inside
the day whose payload contains the daily_summary type tag. -/
def wasReportSentToday (logs : List MessageLog) (userId : String)
    (day : Nat) : Bool :=
  logs.any (fun log =>
    decide (log.userId = some userId) && decide (log.direction = "OUT") &&
    decide (day * msPerDay ≤ log.createdAt) &&
    decide (log.createdAt ≤ day * msPerDay + (msPerDay - 1)) &&
    strContains log.payload "\"type\":\"daily_summary\"")

structure SchedulerDb where
  meals : List Meal
  logs : List MessageLog
deriving Repr, DecidableEq

/-- One sendText call handed to the WhatsApp provider. -/
structure SentMessage where
  userId : String
  phone : String
  text : String
deriving Repr, DecidableEq

def summaryToJson (s : DailySummary) : Json :=
  .obj [("date", .num s.date), ("mealsCount", .num s.mealsCount),
        ("lateMeals", .num s.lateMeals), ("veggiesRatio", .num s.veggiesRatio),
        ("proteinRatio", .num s.proteinRatio), ("junkRatio", .num s.junkRatio),
        ("suggestions", .arr (s.suggestions.map Json.str))]

/-- DailySummaryService.sendDailySummary: compose, send, and log the
outbound row only when the provider reports success; sendOk is the
provider outcome per phone.  Returns (result, new db, sendText calls). -/
def sendDailySummary (jsonParse : String → Option Json)
    (sendOk : String → Bool) (user : UserRow) (now : Nat)
    (db : SchedulerDb) : Bool × SchedulerDb × List SentMessage :=
  match composeDailySummary jsonParse db.meals user.id now with
  | .error _ => (false, db, [])
  | .ok summary =>
      let tone := match user.preferences with
        | some p => if p.tone = "" then "friendly" else p.tone
        | none => "friendly"
      let messageText := formatSummaryText summary tone
      let attempted : List SentMessage := [⟨user.id, user.phone, messageText⟩]
      if sendOk user.phone then
        (true,
         { db with logs := db.logs ++
             [⟨some user.id, "OUT",
               Json.stringify (.obj [("type", .str "daily_summary"),
                 ("text", .str messageText), ("summary", summaryToJson summary)]),
               now⟩] },
         attempted)
      else (false, db, attempted)

def hourOfMs (t : Nat) : Nat := t / 3600000 % 24

def minuteOfMs (t : Nat) : Nat := t / 60000 % 60

/-- The per-user body of checkAndSendReports; a parseTimeString throw is
caught and skips only this user. -/
def processUserReport (jsonParse : String → Option Json)
    (sendOk : String → Bool) (now : Nat)
    (state : SchedulerDb × List SentMessage) (user : UserRow) :
    SchedulerDb × List SentMessage :=
  match user.preferences with
  | none => state
  | some prefs =>
      match parseTimeString prefs.reportTime with
      | none => state
      | some hm =>
          if hm.1 = hourOfMs now ∧ hm.2 = minuteOfMs now then
            if wasReportSentToday state.1.logs user.id (dayIndex now) then state
            else
              let r := sendDailySummary jsonParse sendOk user now state.1
              (r.2.1, state.2 ++ r.2.2)
          else state

/-- ReportScheduler.checkAndSendReports over the loaded user list. -/
def checkAndSendReports (jsonParse : String → Option Json)
    (sendOk : String → Bool) (now : Nat) (users : List UserRow)
    (db : SchedulerDb) : SchedulerDb × List SentMessage :=
  users.foldl (processUserReport jsonParse sendOk now) (db, [])

/-! ## Webhook endpoint (createWebhookRouter POST /whatsapp,
validateMessageLength) -/

/-- The parsed incoming message; sender models the `from` field (from is
a Lean keyword). -/
structure IncomingMessage where
  sender : String
  text : String
  timestamp : Nat
deriving Repr, DecidableEq

/-- The rows the claim talks about: Meal and Preferences tables. -/
structure AppDb where
  meals : List Meal
  preferences : List Preferences
deriving Repr, DecidableEq

inductive WebhookBody where
  | errorBody (error : String)
  | statusBody (status : String) (message : String)
  | successBody (status : String) (responseType : String)
deriving Repr, DecidableEq

structure HttpResponse where
  status : Nat
  body : WebhookBody
deriving Repr, DecidableEq

/-- validateMessageLength (src/utils/text.ts). -/
def validateMessageLength (text : String) (maxLength : Nat := 1000) : Bool :=
  decide (0 < (trimString text).length) && decide (text.length ≤ maxLength)

/-- The POST /whatsapp handler: provider validation and parsing already
happened (validateOk, msg); process is the MessageProcessingService
collaborator, whose throw carries whatever state it left behind.
Returns (db, http response, sendText calls). -/
def webhookPost (validateOk : Bool) (msg : IncomingMessage)
    (process : IncomingMessage → AppDb → Except AppDb (AppDb × (String × String)))
    (db : AppDb) : AppDb × HttpResponse × List (String × String) :=
  if !validateOk then
    (db, ⟨400, .errorBody "Invalid webhook request"⟩, [])
  else if !(validateMessageLength msg.text) then
    (db, ⟨200, .statusBody "error" "Message too long"⟩,
     [(msg.sender, "Message too long. Please keep it under 1000 characters.")])
  else
    match process msg db with
    | .ok r => (r.1, ⟨200, .successBody "success" r.2.2⟩, [(msg.sender, r.2.1)])
    | .error db' =>
        (db', ⟨500, .errorBody "Internal server error"⟩,
         [(msg.sender, "Sorry, something went wrong. Please try again later.")])

/-! ## Theorems -/

/-- C1: the router returns the ask_coach fallback on a transport error,
an absent response message, or malformed JSON tool arguments. -/
theorem routeMessage_fallback (jsonParse : String → Option Json)
    (text : String) (context : UserContext) (outcome : CompletionOutcome)
    (h : outcome = .error () ∨
         (∃ c, outcome = .ok c ∧ firstMessage c = none) ∨
         (∃ c m tc rest, outcome = .ok c ∧ firstMessage c = some m ∧
            m.tool_calls = tc :: rest ∧ tc.type = "function" ∧
            jsonParse tc.arguments = none)) :
    routeMessage jsonParse text context outcome =
      .tool "ask_coach" (.obj [("question", .str text)]) := by
  rcases h with h | ⟨c, rfl, hm⟩ | ⟨c, m, tc, rest, rfl, hm, htc, hty, hp⟩
  · subst h; rfl
  · simp [routeMessage, hm, askCoachFallback]
  · simp [routeMessage, hm, htc, hty, hp, askCoachFallback]

theorem routeMessage_fallback_witness :
    routeMessage (fun _ => none) "hello"
      ⟨none, none, none, none⟩ (.error ()) =
      .tool "ask_coach" (.obj [("question", .str "hello")]) :=
  routeMessage_fallback (fun _ => none) "hello" ⟨none, none, none, none⟩
    (.error ()) (Or.inl rfl)

theorem parseConfidence_bounds {j : Json} {c : Rat}
    (h : parseConfidence j = some c) : 0 ≤ c ∧ c ≤ 1 := by
  simp only [parseConfidence, Option.bind_eq_bind, Option.bind_eq_some] at h
  obtain ⟨q, hq, hif⟩ := h
  split at hif
  · rename_i hb; cases hif; exact hb
  · cases hif

theorem parseConfRange_bounds {j : Json} {r : ConfRange}
    (h : parseConfRange j = some r) : 0 ≤ r.confidence ∧ r.confidence ≤ 1 := by
  simp only [parseConfRange, Option.bind_eq_bind, Option.bind_eq_some,
    Option.some.injEq] at h
  obtain ⟨a1, h1, mn, h2, a2, h3, mx, h4, a3, h5, c, h6, hr⟩ := h
  subst hr
  exact parseConfidence_bounds h6

theorem parseOptWith_some {α : Type} {f : Json → Option α} {o : Option Json}
    {r : Option α} {a : α} (h : parseOptWith f o = some r) (ha : r = some a) :
    ∃ v, o = some v ∧ f v = some a := by
  subst ha
  cases o with
  | none => simp [parseOptWith] at h
  | some v =>
    simp only [parseOptWith, Option.map_eq_some', Option.some.injEq] at h
    obtain ⟨b, hb, hba⟩ := h
    cases hba
    exact ⟨v, rfl, hb⟩

theorem parseNullableWith_some {α : Type} {f : Json → Option α} {o : Option Json}
    {r : Option α} {a : α} (h : parseNullableWith f o = some r) (ha : r = some a) :
    ∃ v, o = some v ∧ f v = some a := by
  subst ha
  cases o with
  | none => cases h
  | some v =>
    cases v <;> simp only [parseNullableWith, Option.map_eq_some',
      Option.some.injEq] at h
    case null => simp at h
    all_goals (obtain ⟨b, hb, hba⟩ := h; cases hba; exact ⟨_, rfl, hb⟩)

theorem parseOptNullableWith_some {α : Type} {f : Json → Option α} {o : Option Json}
    {r : Option α} {a : α} (h : parseOptNullableWith f o = some r) (ha : r = some a) :
    ∃ v, o = some v ∧ f v = some a := by
  subst ha
  cases o with
  | none => simp [parseOptNullableWith] at h
  | some v =>
    cases v <;> simp only [parseOptNullableWith, Option.map_eq_some',
      Option.some.injEq] at h
    case null => simp at h
    all_goals (obtain ⟨b, hb, hba⟩ := h; cases hba; exact ⟨_, rfl, hb⟩)

theorem parseConfBool_bounds {j : Json} {r : ConfBool}
    (h : parseConfBool j = some r) : 0 ≤ r.confidence ∧ r.confidence ≤ 1 := by
  simp only [parseConfBool, Option.bind_eq_bind, Option.bind_eq_some,
    Option.some.injEq] at h
  obtain ⟨a1, h1, v, h2, a2, h3, c, h4, hr⟩ := h
  subst hr
  exact parseConfidence_bounds h4

theorem parseProcessingLevel_bounds {j : Json} {r : ConfNat}
    (h : parseProcessingLevel j = some r) : 0 ≤ r.confidence ∧ r.confidence ≤ 1 := by
  simp only [parseProcessingLevel, Option.bind_eq_bind, Option.bind_eq_some] at h
  obtain ⟨a1, h1, v, h2, a2, h3, c, h4, hif⟩ := h
  have hc := parseConfidence_bounds h4
  split at hif
  · cases hif; exact hc
  · split at hif
    · cases hif; exact hc
    · split at hif
      · cases hif; exact hc
      · split at hif
        · cases hif; exact hc
        · cases hif

theorem parseConfEnum_bounds {allowed : List String} {j : Json} {r : ConfStr}
    (h : parseConfEnum allowed j = some r) : 0 ≤ r.confidence ∧ r.confidence ≤ 1 := by
  simp only [parseConfEnum, Option.bind_eq_bind, Option.bind_eq_some] at h
  obtain ⟨a1, h1, v, h2, a2, h3, c, h4, hif⟩ := h
  have hc := parseConfidence_bounds h4
  split at hif
  · cases hif; exact hc
  · cases hif

theorem parseIngredient_bounds {j : Json} {i : Ingredient}
    (h : parseIngredient j = some i) : 0 ≤ i.confidence ∧ i.confidence ≤ 1 := by
  simp only [parseIngredient, Option.bind_eq_bind, Option.bind_eq_some,
    Option.some.injEq] at h
  obtain ⟨a1, h1, n, h2, a2, h3, c, h4, hr⟩ := h
  subst hr
  exact parseConfidence_bounds h4

theorem parseIngredientList_bounds : ∀ {js : List Json} {l : List Ingredient},
    parseIngredientList js = some l →
    ∀ i ∈ l, 0 ≤ i.confidence ∧ i.confidence ≤ 1 := by
  intro js
  induction js with
  | nil =>
    intro l h i hi
    simp only [parseIngredientList, Option.some.injEq] at h
    subst h; simp at hi
  | cons j rest ih =>
    intro l h i hi
    simp only [parseIngredientList, Option.bind_eq_bind, Option.bind_eq_some,
      Option.some.injEq] at h
    obtain ⟨i0, hi0, l0, hl0, hl⟩ := h
    subst hl
    rcases List.mem_cons.mp hi with hi | hi
    · subst hi; exact parseIngredient_bounds hi0
    · exact ih hl0 i hi

theorem parseIngredients_bounds {j : Json} {l : List Ingredient}
    (h : parseIngredients j = some l) :
    ∀ i ∈ l, 0 ≤ i.confidence ∧ i.confidence ≤ 1 := by
  cases j <;> simp only [parseIngredients] at h
  all_goals first
    | exact parseIngredientList_bounds h
    | exact Option.noConfusion h

theorem parseNutrition_bounds {j : Json} {n : Nutrition}
    (h : parseNutrition j = some n) :
    (∀ r, n.calories = some r → 0 ≤ r.confidence ∧ r.confidence ≤ 1) ∧
    (∀ r, n.protein_g = some r → 0 ≤ r.confidence ∧ r.confidence ≤ 1) ∧
    (∀ r, n.carbs_g = some r → 0 ≤ r.confidence ∧ r.confidence ≤ 1) ∧
    (∀ r, n.fat_g = some r → 0 ≤ r.confidence ∧ r.confidence ≤ 1) ∧
    (∀ r, n.fiber_g = some r → 0 ≤ r.confidence ∧ r.confidence ≤ 1) := by
  simp only [parseNutrition, Option.bind_eq_bind, Option.bind_eq_some,
    Option.some.injEq] at h
  obtain ⟨cal, hcal, prot, hprot, carb, hcarb, fat, hfat, fib, hfib, hn⟩ := h
  subst hn
  refine ⟨?_, ?_, ?_, ?_, ?_⟩ <;> intro r hr
  · obtain ⟨v, _, hv⟩ := parseNullableWith_some hcal hr
    exact parseConfRange_bounds hv
  · obtain ⟨v, _, hv⟩ := parseNullableWith_some hprot hr
    exact parseConfRange_bounds hv
  · obtain ⟨v, _, hv⟩ := parseNullableWith_some hcarb hr
    exact parseConfRange_bounds hv
  · obtain ⟨v, _, hv⟩ := parseNullableWith_some hfat hr
    exact parseConfRange_bounds hv
  · obtain ⟨v, _, hv⟩ := parseOptNullableWith_some hfib hr
    exact parseConfRange_bounds hv

theorem parseCategories_bounds {j : Json} {c : Categories}
    (h : parseCategories j = some c) :
    (0 ≤ c.veggies.confidence ∧ c.veggies.confidence ≤ 1) ∧
    (0 ≤ c.junk.confidence ∧ c.junk.confidence ≤ 1) ∧
    (0 ≤ c.homemade.confidence ∧ c.homemade.confidence ≤ 1) ∧
    (∀ p, c.processing_level = some p → 0 ≤ p.confidence ∧ p.confidence ≤ 1) ∧
    (∀ q, c.carbs_quality = some q → 0 ≤ q.confidence ∧ q.confidence ≤ 1) := by
  simp only [parseCategories, Option.bind_eq_bind, Option.bind_eq_some,
    Option.some.injEq] at h
  obtain ⟨a1, h1, veg, hveg, a2, h2, jk, hjk, pl, hpl, a3, h3, hm, hhm, cq, hcq, hc⟩ := h
  subst hc
  refine ⟨parseConfBool_bounds hveg, parseConfBool_bounds hjk,
    parseConfBool_bounds hhm, ?_, ?_⟩
  · intro p hp
    obtain ⟨v, _, hv⟩ := parseOptWith_some hpl hp
    exact parseProcessingLevel_bounds hv
  · intro q hq
    obtain ⟨v, _, hv⟩ := parseOptWith_some hcq hq
    exact parseConfEnum_bounds hv

theorem mealAnalysisSchemaParse_valid {j : Json} {a : MealAnalysis}
    (h : mealAnalysisSchemaParse j = some a) : confidencesValid a := by
  simp only [mealAnalysisSchemaParse, Option.bind_eq_bind, Option.bind_eq_some,
    Option.some.injEq] at h
  obtain ⟨nj, hnj, n, hn, cj, hcj, cats, hcats, ij, hij, ing, hing, mtj, hmtj, mt, hmt,
    psj, hpsj, ps, hps, df, hdf, ocj, hocj, oc, hoc, nt, hnt, ha⟩ := h
  subst ha
  obtain ⟨hn1, hn2, hn3, hn4, hn5⟩ := parseNutrition_bounds hn
  obtain ⟨hc1, hc2, hc3, hc4, hc5⟩ := parseCategories_bounds hcats
  obtain ⟨ho1, ho2⟩ := parseConfidence_bounds hoc
  exact ⟨ho1, ho2, hn1, hn2, hn3, hn4, hn5, hc1, hc2, hc3, hc4, hc5,
    parseIngredients_bounds hing, parseConfEnum_bounds hmt, parseConfEnum_bounds hps⟩

theorem confidencesValid_update {a : MealAnalysis} :
    confidencesValid { a with estimation_source := "openai",
                              model_version := "gpt-4o-mini",
                              classification_version := 1 } ↔
    confidencesValid a := by
  cases a; exact Iff.rfl

/-- C4: the meal analyzer returns either null or a fully schema-valid
analysis whose confidences all lie in [0,1]; a remote failure, a missing
function call, or a schema-validation failure each yield null. -/
theorem analyzeMeal_spec (jsonParse : String → Option Json)
    (outcome : AnalyzerOutcome) :
    (analyzeMeal jsonParse outcome = none ∨
      ∃ a, analyzeMeal jsonParse outcome = some a ∧ confidencesValid a) ∧
    (outcome = .error () → analyzeMeal jsonParse outcome = none) ∧
    (∀ r, outcome = .ok r →
      (analyzerFunctionCall r = none ∨
       (∃ fc, analyzerFunctionCall r = some fc ∧ fc.arguments = none) ∨
       (∃ fc s, analyzerFunctionCall r = some fc ∧ fc.arguments = some s ∧
         (jsonParse s = none ∨
          ∃ js, jsonParse s = some js ∧ mealAnalysisSchemaParse js = none))) →
      analyzeMeal jsonParse outcome = none) := by
  refine ⟨?_, ?_, ?_⟩
  · rcases outcome with e | response
    · exact Or.inl rfl
    · cases hfc : analyzerFunctionCall response with
      | none => exact Or.inl (by simp [analyzeMeal, hfc])
      | some fc =>
        cases hargs : fc.arguments with
        | none => exact Or.inl (by simp [analyzeMeal, hfc, hargs])
        | some s =>
          cases hp : jsonParse s with
          | none => exact Or.inl (by simp [analyzeMeal, hfc, hargs, hp])
          | some raw =>
            cases hv : mealAnalysisSchemaParse raw with
            | none => exact Or.inl (by simp [analyzeMeal, hfc, hargs, hp, hv])
            | some v =>
              refine Or.inr ⟨{ v with estimation_source := "openai",
                                      model_version := "gpt-4o-mini",
                                      classification_version := 1 },
                by simp [analyzeMeal, hfc, hargs, hp, hv], ?_⟩
              exact confidencesValid_update.mpr (mealAnalysisSchemaParse_valid hv)
  · intro h; subst h; rfl
  · intro r hr hfail
    subst hr
    rcases hfail with hfc | ⟨fc, hfc, hargs⟩ | ⟨fc, s, hfc, hargs, hrest⟩
    · simp [analyzeMeal, hfc]
    · simp [analyzeMeal, hfc, hargs]
    · rcases hrest with hp | ⟨js, hjs, hv⟩
      · simp [analyzeMeal, hfc, hargs, hp]
      · simp [analyzeMeal, hfc, hargs, hjs, hv]

theorem analyzeMeal_spec_witness :
    analyzeMeal (fun _ => none) (.error ()) = none :=
  (analyzeMeal_spec (fun _ => none) (.error ())).2.1 rfl

theorem optGetD_idem {α : Type} (o : Option α) (x : α) :
    o.getD (o.getD x) = o.getD x := by
  cases o <;> rfl

/-- C5: applying the same set_preferences update twice leaves the
persisted state (storeMedia flag and Preferences row) exactly as after
applying it once. -/
theorem applyPreferences_idempotent (userId : String)
    (updates : PreferenceUpdate) (st : UserPrefsState) (p : Preferences)
    (h : st.preferences = some p) :
    (applyPreferences userId updates (applyPreferences userId updates st).2).2 =
    (applyPreferences userId updates st).2 := by
  obtain ⟨sm, prefs⟩ := st
  simp only at h
  subst h
  obtain ⟨pu, pg, pt, pr, prf, pf, pth⟩ := p
  obtain ⟨g, r, t, f, m⟩ := updates
  simp only [applyPreferences]
  cases m <;> cases f <;> cases g <;> cases r <;> cases t <;> rfl

theorem applyPreferences_idempotent_witness :
    (applyPreferences "u1"
      ⟨some "fat_loss", none, some "funny", some ["protein"], none⟩
      (applyPreferences "u1"
        ⟨some "fat_loss", none, some "funny", some ["protein"], none⟩
        ⟨false, some ⟨"u1", "general", "friendly", "21:30", "text", "[]",
          "\x7b\"lateHour\":21\x7d"⟩⟩).2).2 =
    (applyPreferences "u1"
      ⟨some "fat_loss", none, some "funny", some ["protein"], none⟩
      ⟨false, some ⟨"u1", "general", "friendly", "21:30", "text", "[]",
        "\x7b\"lateHour\":21\x7d"⟩⟩).2 :=
  applyPreferences_idempotent "u1"
    ⟨some "fat_loss", none, some "funny", some ["protein"], none⟩
    ⟨false, some ⟨"u1", "general", "friendly", "21:30", "text", "[]",
      "\x7b\"lateHour\":21\x7d"⟩⟩
    ⟨"u1", "general", "friendly", "21:30", "text", "[]",
      "\x7b\"lateHour\":21\x7d"⟩ rfl

/-- C6 counterexample: with arguments containing only dietaryRestrictions,
the persisted Preferences row is left completely unchanged, yet the
confirmation text enumerates "dietary restrictions" as updated — so the
confirmation does not enumerate exactly the fields that were updated. -/
theorem setPreferencesHandle_counterexample :
    (setPreferencesHandle
      (Json.obj [("dietaryRestrictions", Json.arr [Json.str "vegan"])]) "u1"
      ⟨false, some ⟨"u1", "general", "friendly", "21:30", "text", "[]",
        "\x7b\"lateHour\":21\x7d"⟩⟩).1.1 =
      "✅ Updated: dietary restrictions: vegan" ∧
    (setPreferencesHandle
      (Json.obj [("dietaryRestrictions", Json.arr [Json.str "vegan"])]) "u1"
      ⟨false, some ⟨"u1", "general", "friendly", "21:30", "text", "[]",
        "\x7b\"lateHour\":21\x7d"⟩⟩).2 =
      ⟨false, some ⟨"u1", "general", "friendly", "21:30", "text", "[]",
        "\x7b\"lateHour\":21\x7d"⟩⟩ := by
  constructor <;> rfl

/-- C6 (amended): only the prefs fields present among goal, tone,
reportTime, focus change (omitted ones and reportFormat/thresholds keep
their prior values), and the confirmation enumerates exactly the fields
present in the arguments, in the fixed order goal, tone, reportTime,
focus, dietaryRestrictions — dietaryRestrictions being echoed in the
confirmation even though it is never persisted. -/
theorem setPreferencesHandle_frame (argsJson : Json) (v : SetPreferencesArgs)
    (userId : String) (st : UserPrefsState) (p : Preferences)
    (hparse : setPreferencesSchemaParse argsJson = some v)
    (hrow : st.preferences = some p) :
    ∃ p', (setPreferencesHandle argsJson userId st).2.preferences = some p' ∧
      p'.userId = p.userId ∧
      p'.goal = v.goal.getD p.goal ∧
      p'.tone = v.tone.getD p.tone ∧
      p'.reportTime = v.reportTime.getD p.reportTime ∧
      p'.focus = (match v.focus with
                  | some f => Json.stringify (.arr (f.map .str))
                  | none => p.focus) ∧
      p'.reportFormat = p.reportFormat ∧
      p'.thresholds = p.thresholds ∧
      (setPreferencesHandle argsJson userId st).1.1 =
        "✅ Updated: " ++ String.intercalate ", " (specConfirmationLabels v) := by
  simp only [setPreferencesHandle, hparse]
  obtain ⟨sm, prefs⟩ := st
  simp only at hrow
  subst hrow
  obtain ⟨pu, pg, pt, pr, prf, pf, pth⟩ := p
  obtain ⟨g, t, r, f, d, m⟩ := v
  cases m <;> cases f <;>
    exact ⟨_, rfl, rfl, rfl, rfl, rfl, rfl, rfl, rfl, rfl⟩

theorem setPreferencesHandle_frame_witness :
    (setPreferencesHandle (Json.obj [("goal", Json.str "fat_loss")]) "u1"
      ⟨false, some ⟨"u1", "general", "friendly", "21:30", "text", "[]",
        "\x7b\"lateHour\":21\x7d"⟩⟩).1.1 =
      "✅ Updated: goal: fat_loss" := by
  obtain ⟨p', hp', hu, hg, ht, hr, hf, hrf, hth, htext⟩ :=
    setPreferencesHandle_frame (Json.obj [("goal", Json.str "fat_loss")])
      ⟨some "fat_loss", none, none, none, none, none⟩ "u1"
      ⟨false, some ⟨"u1", "general", "friendly", "21:30", "text", "[]",
        "\x7b\"lateHour\":21\x7d"⟩⟩
      ⟨"u1", "general", "friendly", "21:30", "text", "[]",
        "\x7b\"lateHour\":21\x7d"⟩ rfl rfl
  rw [htext]
  rfl

/-- C10: getOrCreateUser never returns a preference-less user: a
successful result always carries a Preferences row; an unseen phone
creates the user with the default Preferences atomically; a found user
without a Preferences row makes the operation throw. -/
theorem getOrCreateUser_spec (db : List UserRow) (newId phone language : String) :
    (∀ u db', getOrCreateUser db newId phone language = .ok (u, db') →
       u.preferences.isSome = true) ∧
    (findByPhone db phone = none →
       getOrCreateUser db newId phone language =
         .ok (⟨newId, phone, language, false, some (defaultPreferences newId)⟩,
              db ++ [⟨newId, phone, language, false, some (defaultPreferences newId)⟩]) ∧
       defaultPreferences newId =
         ⟨newId, "general", "friendly", "21:30", "text", "[]",
          "\x7b\"lateHour\":21\x7d"⟩) ∧
    (∀ u, findByPhone db phone = some u → u.preferences = none →
       getOrCreateUser db newId phone language =
         .error "Failed to create user preferences") := by
  refine ⟨?_, ?_, ?_⟩
  · intro u db' hok
    simp only [getOrCreateUser] at hok
    cases hp : (upsertUser db newId phone language).1.preferences with
    | none => rw [hp] at hok; cases hok
    | some q =>
      rw [hp] at hok
      injection hok with h1
      have hu : (upsertUser db newId phone language).1 = u := by rw [h1]
      rw [← hu, hp]
      rfl
  · intro hfind
    constructor
    · simp [getOrCreateUser, upsertUser, hfind, createUser]
    · rfl
  · intro u hfind hnone
    simp [getOrCreateUser, upsertUser, hfind, hnone]

theorem getOrCreateUser_spec_witness :
    getOrCreateUser [] "u1" "+972501234567" "he" =
      .ok (⟨"u1", "+972501234567", "he", false, some (defaultPreferences "u1")⟩,
           [⟨"u1", "+972501234567", "he", false, some (defaultPreferences "u1")⟩]) ∧
    defaultPreferences "u1" =
      ⟨"u1", "general", "friendly", "21:30", "text", "[]",
       "\x7b\"lateHour\":21\x7d"⟩ :=
  (getOrCreateUser_spec [] "u1" "+972501234567" "he").2.1 rfl

/-- C2: with valid log_meal arguments, a Meal row is appended whatever the
analyzer outcome, with rawText intact; when the analyzer returns null, the
row carries the empty tags blob and the handler returns the fixed
analysis-unavailable confirmation. -/
theorem logMealHandle_persists (isDatetime : String → Bool)
    (parseDate : String → Nat) (argsJson : Json) (v : LogMealArgs)
    (userId : String) (ts : Nat) (user : UserRow) (meals : List Meal)
    (hparse : logMealSchemaParse isDatetime argsJson = some v) :
    (∀ analyzerResult, ∃ m,
      (logMealHandle isDatetime parseDate analyzerResult argsJson userId ts
        user meals).2 = meals ++ [m] ∧
      m.rawText = v.text ∧ m.userId = userId) ∧
    (logMealHandle isDatetime parseDate none argsJson userId ts user meals).2 =
      meals ++ [⟨userId, v.text, "TEXT", "\x7b\x7d",
        (match v.when with | some w => parseDate w | none => ts)⟩] ∧
    (logMealHandle isDatetime parseDate none argsJson userId ts user meals).1 =
      ("Meal logged! (Analysis temporarily unavailable, but your meal is saved)",
       "meal_logged_no_analysis") := by
  refine ⟨?_, ?_, ?_⟩
  · intro analyzerResult
    cases analyzerResult with
    | none =>
      exact ⟨⟨userId, v.text, "TEXT", "\x7b\x7d",
        (match v.when with | some w => parseDate w | none => ts)⟩,
        by simp [logMealHandle, hparse, createMeal], rfl, rfl⟩
    | some a =>
      exact ⟨⟨userId, v.text, "TEXT", Json.stringify (analysisToJson a),
        (match v.when with | some w => parseDate w | none => ts)⟩,
        by simp [logMealHandle, hparse, createMeal], rfl, rfl⟩
  · simp [logMealHandle, hparse, createMeal]
  · simp [logMealHandle, hparse]

theorem logMealHandle_persists_witness :
    (logMealHandle (fun _ => true) (fun _ => 0) none
      (Json.obj [("text", Json.str "eggs")]) "u1" 5
      ⟨"u1", "+972501234567", "he", false, none⟩ []).2 =
      [⟨"u1", "eggs", "TEXT", "\x7b\x7d", 5⟩] ∧
    (logMealHandle (fun _ => true) (fun _ => 0) none
      (Json.obj [("text", Json.str "eggs")]) "u1" 5
      ⟨"u1", "+972501234567", "he", false, none⟩ []).1 =
      ("Meal logged! (Analysis temporarily unavailable, but your meal is saved)",
       "meal_logged_no_analysis") := by
  have h := logMealHandle_persists (fun _ => true) (fun _ => 0)
    (Json.obj [("text", Json.str "eggs")]) ⟨"eggs", none⟩ "u1" 5
    ⟨"u1", "+972501234567", "he", false, none⟩ [] rfl
  exact ⟨h.2.1, h.2.2⟩

theorem splitWords_infix_aux : ∀ (l acc w : List Char),
    (w ∈ splitWordsGo acc l → w <:+: acc.reverse ++ l) ∧
    (w ∈ splitWordsSkip l → w <:+: l) := by
  intro l
  induction l with
  | nil =>
    intro acc w
    constructor
    · intro hw
      simp only [splitWordsGo, List.mem_singleton] at hw
      subst hw
      exact ⟨[], [], by simp⟩
    · intro hw
      simp only [splitWordsSkip, List.mem_singleton] at hw
      subst hw
      exact ⟨[], [], rfl⟩
  | cons c rest ih =>
    intro acc w
    constructor
    · intro hw
      simp only [splitWordsGo] at hw
      by_cases hc : c.isWhitespace
      · rw [if_pos hc] at hw
        rcases List.mem_cons.mp hw with h | h
        · subst h
          exact ⟨[], c :: rest, rfl⟩
        · have h2 := (ih acc w).2 h
          exact List.IsInfix.trans h2 ⟨acc.reverse ++ [c], [], by simp⟩
      · rw [if_neg hc] at hw
        have h1 := (ih (c :: acc) w).1 hw
        simpa [List.append_assoc] using h1
    · intro hw
      simp only [splitWordsSkip] at hw
      by_cases hc : c.isWhitespace
      · rw [if_pos hc] at hw
        have h2 := (ih acc w).2 hw
        exact List.IsInfix.trans h2 ⟨[c], [], by simp⟩
      · rw [if_neg hc] at hw
        have h1 := (ih [c] w).1 hw
        simpa using h1

theorem splitWords_mem_part {l w : List Char} (h : w ∈ splitWords l) :
    w <:+: l := by
  simpa using (splitWords_infix_aux l [] w).1 h

theorem infix_dropWhile_ws {c : Char} {ps l : List Char}
    (hw : c.isWhitespace = false) (h : (c :: ps) <:+: l) :
    (c :: ps) <:+: l.dropWhile Char.isWhitespace := by
  obtain ⟨s, t, hst⟩ := h
  subst hst
  induction s with
  | nil =>
    simp only [List.nil_append, List.cons_append, List.dropWhile_cons, hw,
      Bool.false_eq_true, if_false]
    exact ⟨[], t, rfl⟩
  | cons x xs ih =>
    simp only [List.cons_append, List.dropWhile_cons]
    split
    · exact ih
    · exact ⟨x :: xs, t, by simp⟩

theorem trimChars_part (l : List Char) : trimChars l <:+: l := by
  have hsuf : l.dropWhile Char.isWhitespace <:+ l :=
    List.dropWhile_suffix Char.isWhitespace
  obtain ⟨r, hr⟩ := hsuf
  have hsuf2 : (l.dropWhile Char.isWhitespace).reverse.dropWhile Char.isWhitespace
      <:+ (l.dropWhile Char.isWhitespace).reverse :=
    List.dropWhile_suffix Char.isWhitespace
  obtain ⟨r2, hr2⟩ := hsuf2
  refine ⟨r, r2.reverse, ?_⟩
  have h2 := congrArg List.reverse hr2
  simp only [List.reverse_append, List.reverse_reverse] at h2
  calc r ++ trimChars l ++ r2.reverse
      = r ++ (((l.dropWhile Char.isWhitespace).reverse.dropWhile
          Char.isWhitespace).reverse ++ r2.reverse) := by
        rw [List.append_assoc]; rfl
    _ = r ++ l.dropWhile Char.isWhitespace := by rw [h2]
    _ = l := hr

theorem goodKeyword_props {kw : String} (h : goodKeyword kw = true) :
    kw.data ≠ [] ∧ (∀ c, kw.data.head? = some c → c.isWhitespace = false) ∧
    (∀ c, kw.data.getLast? = some c → c.isWhitespace = false) := by
  unfold goodKeyword at h
  rw [Bool.and_eq_true] at h
  obtain ⟨h1, h2⟩ := h
  refine ⟨?_, ?_, ?_⟩
  · intro hnil
    rw [hnil] at h1
    simp at h1
  · intro c hc
    rw [hc] at h1
    simpa using h1
  · intro c hc
    rw [hc] at h2
    simpa using h2

theorem infix_trimChars {pat l : List Char} (hgood : goodKeyword ⟨pat⟩ = true)
    (h : pat <:+: l) : pat <:+: trimChars l := by
  obtain ⟨hne, hhead, hlast⟩ := goodKeyword_props hgood
  obtain ⟨c, ps, rfl⟩ := List.exists_cons_of_ne_nil hne
  have hc : c.isWhitespace = false := hhead c rfl
  have h1 : (c :: ps) <:+: l.dropWhile Char.isWhitespace := infix_dropWhile_ws hc h
  have hrne : (c :: ps).reverse ≠ [] := by simp
  obtain ⟨d, rs, hrev⟩ := List.exists_cons_of_ne_nil hrne
  have hd : d.isWhitespace = false := by
    apply hlast
    rw [← List.head?_reverse, hrev]
    rfl
  have h2 : (c :: ps).reverse <:+: (l.dropWhile Char.isWhitespace).reverse :=
    ( List.reverse_infix).mpr h1
  rw [hrev] at h2
  have h3 := infix_dropWhile_ws hd h2
  rw [← hrev] at h3
  rw [← List.reverse_reverse
    (((l.dropWhile Char.isWhitespace).reverse).dropWhile Char.isWhitespace)] at h3
  exact ( List.reverse_infix).mp h3

theorem anyKeyword_false {T : List Char} {W : List (List Char)}
    (lset : List String)
    (h : ∀ kw ∈ lset, keywordHit T W kw = false) :
    lset.any (keywordHit T W) = false := by
  by_contra hc
  rw [Bool.not_eq_false, List.any_eq_true] at hc
  obtain ⟨kw, hkwm, hkwt⟩ := hc
  rw [h kw hkwm] at hkwt
  cases hkwt

theorem keywordHit_false_of_not_contained {s : String} {kw : String}
    (h : containsChars (lowerChars s) kw.data = false) :
    keywordHit (trimChars (lowerChars s))
      (splitWords (trimChars (lowerChars s))) kw = false := by
  rw [keywordHit, Bool.or_eq_false_iff]
  constructor
  · by_contra hc
    rw [Bool.not_eq_false] at hc
    have hinf : kw.data <:+: trimChars (lowerChars s) := of_decide_eq_true hc
    have htot : kw.data <:+: lowerChars s :=
      List.IsInfix.trans hinf (trimChars_part _)
    exact absurd htot (of_decide_eq_false h)
  · by_contra hc
    rw [Bool.not_eq_false, List.any_eq_true] at hc
    obtain ⟨w, hwmem, hweq⟩ := hc
    have hw : w = kw.data := of_decide_eq_true hweq
    subst hw
    have hinf : kw.data <:+: trimChars (lowerChars s) := splitWords_mem_part hwmem
    have htot : kw.data <:+: lowerChars s :=
      List.IsInfix.trans hinf (trimChars_part _)
    exact absurd htot (of_decide_eq_false h)

/-- C7: a meal text whose lower-cased form contains a protein keyword is
tagged protein = true, and a text containing no keyword from the high,
medium or low carbs lists is tagged carbs = "medium". -/
theorem tagMealFromText_keywords :
    (∀ (s : String) (hour : Nat) (kw : String), kw ∈ proteinKeywords →
       containsChars (lowerChars s) kw.data = true →
       (tagMealFromText s hour).protein = true) ∧
    (∀ (s : String) (hour : Nat),
       (∀ kw, kw ∈ highCarbKeywords ++ mediumCarbKeywords ++ lowCarbKeywords →
          containsChars (lowerChars s) kw.data = false) →
       (tagMealFromText s hour).carbs = "medium") := by
  constructor
  · intro s hour kw hmem hcont
    have hall : proteinKeywords.all goodKeyword = true := by decide
    have hgood : goodKeyword kw = true := List.all_eq_true.mp hall kw hmem
    have hinf : kw.data <:+: lowerChars s := of_decide_eq_true hcont
    have htrim : kw.data <:+: trimChars (lowerChars s) := infix_trimChars hgood hinf
    simp only [tagMealFromText]
    rw [detectProtein, List.any_eq_true]
    refine ⟨kw, hmem, ?_⟩
    rw [keywordHit, Bool.or_eq_true]
    left
    exact decide_eq_true htrim
  · intro s hour hnone
    have hhigh : highCarbKeywords.any
        (keywordHit (trimChars (lowerChars s))
          (splitWords (trimChars (lowerChars s)))) = false := by
      apply anyKeyword_false
      intro kw hk
      exact keywordHit_false_of_not_contained
        (hnone kw (List.mem_append.mpr (Or.inl (List.mem_append.mpr (Or.inl hk)))))
    have hmed : mediumCarbKeywords.any
        (keywordHit (trimChars (lowerChars s))
          (splitWords (trimChars (lowerChars s)))) = false := by
      apply anyKeyword_false
      intro kw hk
      exact keywordHit_false_of_not_contained
        (hnone kw (List.mem_append.mpr (Or.inl (List.mem_append.mpr (Or.inr hk)))))
    have hlow : lowCarbKeywords.any
        (keywordHit (trimChars (lowerChars s))
          (splitWords (trimChars (lowerChars s)))) = false := by
      apply anyKeyword_false
      intro kw hk
      exact keywordHit_false_of_not_contained
        (hnone kw (List.mem_append.mpr (Or.inr hk)))
    simp only [tagMealFromText]
    rw [detectCarbs, hhigh, hmed, hlow]
    simp

theorem tagMealFromText_keywords_witness :
    (tagMealFromText "Chicken soup" 12).protein = true ∧
    (tagMealFromText "tea" 12).carbs = "medium" := by
  constructor
  · exact tagMealFromText_keywords.1 "Chicken soup" 12 "chicken"
      (by decide) (by decide)
  · exact tagMealFromText_keywords.2 "tea" 12 (by decide)

/-- C8: with zero Meal rows in the queried day, the composed summary has
mealsCount 0, all ratios 0, and exactly the single log-your-meals
suggestion. -/
theorem composeDailySummary_zero_meals (jsonParse : String → Option Json)
    (db : List Meal) (userId : String) (date : Nat)
    (h : getMealsInRange db userId (getDayBounds date).1 (getDayBounds date).2 = []) :
    composeDailySummary jsonParse db userId date =
      .ok ⟨dayIndex date, 0, 0, 0, 0, 0, ["Remember to log your meals tomorrow!"]⟩ := by
  simp [composeDailySummary, getMealStats, h, generateSuggestions]

theorem composeDailySummary_zero_meals_witness :
    composeDailySummary (fun _ => none) [] "u1" 0 =
      .ok ⟨0, 0, 0, 0, 0, 0, ["Remember to log your meals tomorrow!"]⟩ :=
  composeDailySummary_zero_meals (fun _ => none) [] "u1" 0 rfl

theorem sendDailySummary_logs_mono (jsonParse : String → Option Json)
    (sendOk : String → Bool) (user : UserRow) (now : Nat) (db : SchedulerDb) :
    ∃ extra, (sendDailySummary jsonParse sendOk user now db).2.1.logs =
      db.logs ++ extra := by
  rcases hc : composeDailySummary jsonParse db.meals user.id now with e | summary
  · exact ⟨[], by simp [sendDailySummary, hc]⟩
  · simp only [sendDailySummary, hc]
    split
    · exact ⟨_, rfl⟩
    · exact ⟨[], by simp⟩

theorem sendDailySummary_sends_userId (jsonParse : String → Option Json)
    (sendOk : String → Bool) (user : UserRow) (now : Nat) (db : SchedulerDb) :
    ∀ m ∈ (sendDailySummary jsonParse sendOk user now db).2.2,
      m.userId = user.id := by
  rcases hc : composeDailySummary jsonParse db.meals user.id now with e | summary
  · simp [sendDailySummary, hc]
  · simp only [sendDailySummary, hc]
    split
    · intro m hm
      rw [List.mem_singleton] at hm
      subst hm
      rfl
    · intro m hm
      rw [List.mem_singleton] at hm
      subst hm
      rfl

theorem processUser_logs_mono (jsonParse : String → Option Json)
    (sendOk : String → Bool) (now : Nat)
    (st : SchedulerDb × List SentMessage) (v : UserRow) :
    ∃ extra, (processUserReport jsonParse sendOk now st v).1.logs =
      st.1.logs ++ extra := by
  rcases hp : v.preferences with _ | prefs
  · exact ⟨[], by simp [processUserReport, hp]⟩
  · rcases ht : parseTimeString prefs.reportTime with _ | hmn
    · exact ⟨[], by simp [processUserReport, hp, ht]⟩
    · by_cases htime : hmn.1 = hourOfMs now ∧ hmn.2 = minuteOfMs now
      · by_cases hws : wasReportSentToday st.1.logs v.id (dayIndex now) = true
        · exact ⟨[], by simp [processUserReport, hp, ht, htime, hws]⟩
        · obtain ⟨e, he⟩ := sendDailySummary_logs_mono jsonParse sendOk v now st.1
          exact ⟨e, by simp [processUserReport, hp, ht, htime, hws, he]⟩
      · exact ⟨[], by simp [processUserReport, hp, ht, htime]⟩

theorem wasReportSentToday_mono {logs extra : List MessageLog} {uid : String}
    {day : Nat} (h : wasReportSentToday logs uid day = true) :
    wasReportSentToday (logs ++ extra) uid day = true := by
  rw [wasReportSentToday, List.any_eq_true] at h ⊢
  obtain ⟨log, hm, hp⟩ := h
  exact ⟨log, List.mem_append.mpr (Or.inl hm), hp⟩

theorem foldl_logs_mono (jsonParse : String → Option Json)
    (sendOk : String → Bool) (now : Nat) :
    ∀ (users : List UserRow) (st : SchedulerDb × List SentMessage),
    ∃ extra, ((users.foldl (processUserReport jsonParse sendOk now) st).1).logs =
      st.1.logs ++ extra := by
  intro users
  induction users with
  | nil => intro st; exact ⟨[], by simp⟩
  | cons v rest ih =>
    intro st
    obtain ⟨e1, he1⟩ := processUser_logs_mono jsonParse sendOk now st v
    obtain ⟨e2, he2⟩ := ih (processUserReport jsonParse sendOk now st v)
    refine ⟨e1 ++ e2, ?_⟩
    rw [List.foldl_cons, he2, he1, List.append_assoc]

theorem processUser_no_new_send (jsonParse : String → Option Json)
    (sendOk : String → Bool) (now : Nat) (uid : String)
    (st : SchedulerDb × List SentMessage) (v : UserRow)
    (hshield : wasReportSentToday st.1.logs uid (dayIndex now) = true)
    (hsent : ∀ m ∈ st.2, m.userId ≠ uid) :
    ∀ m ∈ (processUserReport jsonParse sendOk now st v).2, m.userId ≠ uid := by
  intro m hm
  rcases hp : v.preferences with _ | prefs
  · simp only [processUserReport, hp] at hm
    exact hsent m hm
  · rcases ht : parseTimeString prefs.reportTime with _ | hmn
    · simp only [processUserReport, hp, ht] at hm
      exact hsent m hm
    · by_cases htime : hmn.1 = hourOfMs now ∧ hmn.2 = minuteOfMs now
      · by_cases hws : wasReportSentToday st.1.logs v.id (dayIndex now) = true
        · simp only [processUserReport, hp, ht, if_pos htime, hws, if_true] at hm
          exact hsent m hm
        · have hne : v.id ≠ uid := by
            intro heq
            rw [heq] at hws
            exact hws hshield
          simp [processUserReport, hp, ht, htime, hws] at hm
          rcases hm with h | h
          · exact hsent m h
          · have hmu := sendDailySummary_sends_userId jsonParse sendOk v now st.1 m h
            rw [hmu]
            exact hne
      · simp only [processUserReport, hp, ht, if_neg htime] at hm
        exact hsent m hm

theorem foldl_no_send (jsonParse : String → Option Json)
    (sendOk : String → Bool) (now : Nat) (uid : String) :
    ∀ (users : List UserRow) (st : SchedulerDb × List SentMessage),
    wasReportSentToday st.1.logs uid (dayIndex now) = true →
    (∀ m ∈ st.2, m.userId ≠ uid) →
    ∀ m ∈ (users.foldl (processUserReport jsonParse sendOk now) st).2,
      m.userId ≠ uid := by
  intro users
  induction users with
  | nil => intro st hshield hsent; exact hsent
  | cons v rest ih =>
    intro st hshield hsent
    rw [List.foldl_cons]
    apply ih
    · obtain ⟨e, he⟩ := processUser_logs_mono jsonParse sendOk now st v
      rw [he]
      exact wasReportSentToday_mono hshield
    · exact processUser_no_new_send jsonParse sendOk now uid st v hshield hsent

theorem wasReportSentToday_of_row {logs : List MessageLog} {uid : String}
    {day : Nat} {row : MessageLog} (hrow : row ∈ logs)
    (huid : row.userId = some uid) (hdir : row.direction = "OUT")
    (hday : dayIndex row.createdAt = day)
    (hpay : strContains row.payload "\"type\":\"daily_summary\"" = true) :
    wasReportSentToday logs uid day = true := by
  rw [wasReportSentToday, List.any_eq_true]
  refine ⟨row, hrow, ?_⟩
  have h1 : day * msPerDay ≤ row.createdAt := by
    rw [← hday]
    unfold dayIndex msPerDay
    omega
  have h2 : row.createdAt ≤ day * msPerDay + (msPerDay - 1) := by
    rw [← hday]
    unfold dayIndex msPerDay
    omega
  simp [huid, hdir, h1, h2, hpay]

/-- C3: when a same-day outbound daily_summary log row already exists for
a user, a scheduler tick attempts no sendText call to that user, and a
second tick at any matching minute of the same day also sends nothing to
that user. -/
theorem scheduler_idempotent (jsonParse : String → Option Json)
    (sendOk : String → Bool) (users users2 : List UserRow) (db : SchedulerDb)
    (uid : String) (row : MessageLog) (now now2 : Nat)
    (hrow : row ∈ db.logs) (huid : row.userId = some uid)
    (hdir : row.direction = "OUT")
    (hday : dayIndex row.createdAt = dayIndex now)
    (hpay : strContains row.payload "\"type\":\"daily_summary\"" = true)
    (hday2 : dayIndex now2 = dayIndex now) :
    (∀ m ∈ (checkAndSendReports jsonParse sendOk now users db).2,
       m.userId ≠ uid) ∧
    (∀ m ∈ (checkAndSendReports jsonParse sendOk now2 users2
        (checkAndSendReports jsonParse sendOk now users db).1).2,
       m.userId ≠ uid) := by
  have hshield : wasReportSentToday db.logs uid (dayIndex now) = true :=
    wasReportSentToday_of_row hrow huid hdir hday hpay
  constructor
  · exact foldl_no_send jsonParse sendOk now uid users (db, []) hshield
      (by intro m hm; cases hm)
  · obtain ⟨e, he⟩ := foldl_logs_mono jsonParse sendOk now users (db, [])
    apply foldl_no_send jsonParse sendOk now2 uid users2 _ ?_
      (by intro m hm; cases hm)
    show wasReportSentToday
      ((checkAndSendReports jsonParse sendOk now users db).1).logs uid
      (dayIndex now2) = true
    rw [hday2]
    show wasReportSentToday
      ((users.foldl (processUserReport jsonParse sendOk now) (db, [])).1).logs
      uid (dayIndex now) = true
    rw [he]
    exact wasReportSentToday_mono hshield

theorem scheduler_idempotent_witness :
    (∀ m ∈ (checkAndSendReports (fun _ => none) (fun _ => true) 77400000
        [⟨"u1", "+972501234567", "he", false,
          some ⟨"u1", "general", "friendly", "21:30", "text", "[]",
            "\x7b\"lateHour\":21\x7d"⟩⟩]
        ⟨[], [⟨some "u1", "OUT", "\x7b\"type\":\"daily_summary\"\x7d", 1000⟩]⟩).2,
       m.userId ≠ "u1") ∧
    (∀ m ∈ (checkAndSendReports (fun _ => none) (fun _ => true) 77400000
        [⟨"u1", "+972501234567", "he", false,
          some ⟨"u1", "general", "friendly", "21:30", "text", "[]",
            "\x7b\"lateHour\":21\x7d"⟩⟩]
        (checkAndSendReports (fun _ => none) (fun _ => true) 77400000
          [⟨"u1", "+972501234567", "he", false,
            some ⟨"u1", "general", "friendly", "21:30", "text", "[]",
              "\x7b\"lateHour\":21\x7d"⟩⟩]
          ⟨[], [⟨some "u1", "OUT", "\x7b\"type\":\"daily_summary\"\x7d",
            1000⟩]⟩).1).2,
       m.userId ≠ "u1") :=
  scheduler_idempotent (fun _ => none) (fun _ => true)
    [⟨"u1", "+972501234567", "he", false,
      some ⟨"u1", "general", "friendly", "21:30", "text", "[]",
        "\x7b\"lateHour\":21\x7d"⟩⟩]
    [⟨"u1", "+972501234567", "he", false,
      some ⟨"u1", "general", "friendly", "21:30", "text", "[]",
        "\x7b\"lateHour\":21\x7d"⟩⟩]
    ⟨[], [⟨some "u1", "OUT", "\x7b\"type\":\"daily_summary\"\x7d", 1000⟩]⟩
    "u1" ⟨some "u1", "OUT", "\x7b\"type\":\"daily_summary\"\x7d", 1000⟩
    77400000 77400000
    (List.mem_singleton.mpr rfl) rfl rfl rfl (by decide) rfl

/-- C9: a provider-validated request whose parsed text exceeds 1000
characters gets HTTP 200 with the error body "Message too long", one
WhatsApp reply with the fixed over-length apology, and no change to any
Meal or Preferences row. -/
theorem webhook_message_too_long (msg : IncomingMessage)
    (process : IncomingMessage → AppDb →
      Except AppDb (AppDb × (String × String)))
    (db : AppDb) (hlen : msg.text.length > 1000) :
    webhookPost true msg process db =
      (db, ⟨200, .statusBody "error" "Message too long"⟩,
       [(msg.sender,
         "Message too long. Please keep it under 1000 characters.")]) := by
  have hv : validateMessageLength msg.text = false := by
    unfold validateMessageLength
    have hd : decide (msg.text.length ≤ 1000) = false := decide_eq_false (by omega)
    rw [hd, Bool.and_false]
  simp [webhookPost, hv]

theorem webhook_message_too_long_witness :
    webhookPost true ⟨"+972501234567", ⟨List.replicate 1001 'a'⟩, 0⟩
      (fun _ db => .error db) ⟨[], []⟩ =
      (⟨[], []⟩, ⟨200, .statusBody "error" "Message too long"⟩,
       [("+972501234567",
         "Message too long. Please keep it under 1000 characters.")]) :=
  webhook_message_too_long ⟨"+972501234567", ⟨List.replicate 1001 'a'⟩, 0⟩
    (fun _ db => .error db) ⟨[], []⟩
    (by
      have h : (⟨List.replicate 1001 'a'⟩ : String).length = 1001 := by
        show (List.replicate 1001 'a').length = 1001
        rw [List.length_replicate]
      show 1000 < (⟨List.replicate 1001 'a'⟩ : String).length
      rw [h]
      decide)
